/-
Verification of the PixelProof Figma integration subsystem.

Shallow embedding of the TypeScript source:
  * src/app/src/app/api/figma/frames/route.ts   (collectFrames, extractFramesFromDocument, GET)
  * src/app/src/lib/crypto.ts                   (encrypt, decrypt envelope handling)
  * Figma API client                            (refreshAccessTokenIfNeeded, getFigmaAccessToken)
  * baseline snapshot generator                 (createBaselineSnapshotForProject upsert,
                                                 extractColorTokens, extractSpacingTokens,
                                                 extractComponentsFromNode, rgbToHex)

JavaScript numbers are modelled as rationals (Rat), Math.round as
floor (x + 1/2), byte buffers as lists of naturals below 256, and
JavaScript object records as association lists in insertion order.
-/
import Mathlib

namespace PixelProof

/-! # Document model (FigmaNode, FigmaBoundingBox, FrameSummary) -/

/-- Figma bounding box: `{ x, y, width, height }` from the API client types. -/
structure FigmaBoundingBox where
  x : Rat
  y : Rat
  width : Rat
  height : Rat
deriving DecidableEq, Repr

/-- Recursive Figma document node: `{ id, name, type, absoluteBoundingBox?, children? }`.
A missing `children` array is modelled as the empty list. -/
inductive FigmaNode where
  | mk (id name type : String) (absoluteBoundingBox : Option FigmaBoundingBox)
       (children : List FigmaNode)
deriving Repr

def FigmaNode.id : FigmaNode → String
  | .mk i _ _ _ _ => i

def FigmaNode.name : FigmaNode → String
  | .mk _ n _ _ _ => n

def FigmaNode.type : FigmaNode → String
  | .mk _ _ t _ _ => t

def FigmaNode.absoluteBoundingBox : FigmaNode → Option FigmaBoundingBox
  | .mk _ _ _ b _ => b

def FigmaNode.children : FigmaNode → List FigmaNode
  | .mk _ _ _ _ c => c

/-- `Math.round` of JavaScript: round half toward positive infinity. -/
def jsRound (x : Rat) : Int := Int.floor (x + (1 : Rat) / 2)

/-- FrameSummary entries returned by the frames route. -/
structure FrameSummary where
  id : String
  name : String
  pageName : String
  width : Int
  height : Int
  depth : Nat
deriving DecidableEq, Repr

/-- `MAX_TRAVERSAL_DEPTH` from the frames route. -/
def MAX_TRAVERSAL_DEPTH : Nat := 10

/-- `MAX_FRAMES` from the frames route. -/
def MAX_FRAMES : Nat := 500

/-- The FrameSummary pushed for a qualifying FRAME node
(`name || 'Unnamed Frame'`, rounded dimensions, current depth). -/
def frameSummaryOf (nid nname pageName : String) (bb : FigmaBoundingBox) (depth : Nat) :
    FrameSummary :=
  { id := nid
    name := if nname = "" then "Unnamed Frame" else nname
    pageName := pageName
    width := jsRound bb.width
    height := jsRound bb.height
    depth := depth }

/-- The FRAME check of `collectFrames` (lines 63-78 of the route): push a
summary only for a FRAME node carrying a bounding box with strictly
positive width and height. -/
def pushFrame (nid nname ntype pageName : String) (nbb : Option FigmaBoundingBox)
    (depth : Nat) (frames : List FrameSummary) : List FrameSummary :=
  if ntype = "FRAME" then
    match nbb with
    | some bb =>
      if 0 < bb.width ∧ 0 < bb.height then
        frames ++ [frameSummaryOf nid nname pageName bb depth]
      else frames
    | none => frames
  else frames

mutual
/-- Embedding of `collectFrames(node, pageName, depth, frames)`:
depth ceiling, count ceiling, FRAME check with positive bounding box,
then recursion over the children with the shared accumulator. -/
def collectFrames : FigmaNode → String → Nat → List FrameSummary → List FrameSummary
  | .mk nid nname ntype nbb nchildren, pageName, depth, frames =>
    if MAX_TRAVERSAL_DEPTH < depth then frames
    else if MAX_FRAMES ≤ frames.length then frames
    else
      collectChildren nchildren pageName depth
        (pushFrame nid nname ntype pageName nbb depth frames)

/-- The `for (const child of node.children)` loop of `collectFrames`,
with its `if (frames.length >= MAX_FRAMES) break` guard. -/
def collectChildren : List FigmaNode → String → Nat → List FrameSummary → List FrameSummary
  | [], _, _, frames => frames
  | c :: cs, pageName, depth, frames =>
    if MAX_FRAMES ≤ frames.length then frames
    else collectChildren cs pageName depth (collectFrames c pageName (depth + 1) frames)
end

/-- The page loop of `extractFramesFromDocument`: skip non-CANVAS top-level
nodes, stop once the frame cap is reached. -/
def extractPages : List FigmaNode → List FrameSummary → List FrameSummary
  | [], frames => frames
  | p :: ps, frames =>
    if MAX_FRAMES ≤ frames.length then frames
    else if p.type = "CANVAS" then
      extractPages ps
        (collectFrames p (if p.name = "" then "Unnamed Page" else p.name) 0 frames)
    else extractPages ps frames

/-- Embedding of `extractFramesFromDocument(document)`. -/
def extractFramesFromDocument (document : FigmaNode) : List FrameSummary :=
  extractPages document.children []

/-- `meta.truncated` computed by the frames route response:
`frames.length >= MAX_FRAMES`. -/
def framesTruncated (frames : List FrameSummary) : Bool :=
  MAX_FRAMES ≤ frames.length

/-! ## Traversal lemmas -/

theorem pushFrame_keeps_acc (nid nname ntype p : String) (nbb : Option FigmaBoundingBox)
    (d : Nat) (fr : List FrameSummary) : fr <+: pushFrame nid nname ntype p nbb d fr := by
  unfold pushFrame
  split
  · split
    · split
      · exact List.prefix_append _ _
      · exact List.prefix_refl _
    · exact List.prefix_refl _
  · exact List.prefix_refl _

theorem pushFrame_length_le (nid nname ntype p : String) (nbb : Option FigmaBoundingBox)
    (d : Nat) (fr : List FrameSummary) (h : fr.length < MAX_FRAMES) :
    (pushFrame nid nname ntype p nbb d fr).length ≤ MAX_FRAMES := by
  unfold pushFrame
  split
  · split
    · split
      · simp only [List.length_append, List.length_cons, List.length_nil]
        omega
      · omega
    · omega
  · omega

theorem pushFrame_mem (nid nname ntype p : String) (nbb : Option FigmaBoundingBox)
    (d : Nat) (fr : List FrameSummary) :
    ∀ f ∈ pushFrame nid nname ntype p nbb d fr, f ∈ fr ∨ f.depth = d := by
  unfold pushFrame
  split
  · split
    · split
      · intro f hf
        rcases List.mem_append.mp hf with hin | hsing
        · exact Or.inl hin
        · right
          have hef : f = frameSummaryOf nid nname p _ d := List.mem_singleton.mp hsing
          subst hef
          rfl
      · exact fun f hf => Or.inl hf
    · exact fun f hf => Or.inl hf
  · exact fun f hf => Or.inl hf

theorem collectFrames_depth_stop (n : FigmaNode) (p : String) (d : Nat)
    (fr : List FrameSummary) (h : MAX_TRAVERSAL_DEPTH < d) :
    collectFrames n p d fr = fr := by
  cases n with
  | mk nid nname ntype nbb nch => rw [collectFrames]; simp [h]

theorem collectFrames_count_stop (n : FigmaNode) (p : String) (d : Nat)
    (fr : List FrameSummary) (h : MAX_FRAMES ≤ fr.length) :
    collectFrames n p d fr = fr := by
  cases n with
  | mk nid nname ntype nbb nch =>
    rw [collectFrames]
    split
    · rfl
    · simp [h]

theorem collectChildren_count_stop (cs : List FigmaNode) (p : String) (d : Nat)
    (fr : List FrameSummary) (h : MAX_FRAMES ≤ fr.length) :
    collectChildren cs p d fr = fr := by
  cases cs with
  | nil => rw [collectChildren]
  | cons c cs' => rw [collectChildren]; simp [h]

theorem collectChildren_deep (cs : List FigmaNode) (p : String) (d : Nat)
    (fr : List FrameSummary) (h : MAX_TRAVERSAL_DEPTH ≤ d) :
    collectChildren cs p d fr = fr := by
  induction cs with
  | nil => rw [collectChildren]
  | cons c cs' ih =>
    rw [collectChildren]
    split
    · rfl
    · rw [collectFrames_depth_stop c p (d + 1) fr (by omega), ih]

mutual
theorem collectFrames_keeps_acc (n : FigmaNode) (p : String) (d : Nat)
    (fr : List FrameSummary) : fr <+: collectFrames n p d fr := by
  cases n with
  | mk nid nname ntype nbb nch =>
    rw [collectFrames]
    split
    · exact List.prefix_refl _
    · split
      · exact List.prefix_refl _
      · exact (pushFrame_keeps_acc nid nname ntype p nbb d fr).trans
          (collectChildren_keeps_acc nch p d _)

theorem collectChildren_keeps_acc (cs : List FigmaNode) (p : String) (d : Nat)
    (fr : List FrameSummary) : fr <+: collectChildren cs p d fr := by
  cases cs with
  | nil => rw [collectChildren]
  | cons c cs' =>
    rw [collectChildren]
    split
    · exact List.prefix_refl _
    · exact (collectFrames_keeps_acc c p (d + 1) fr).trans
        (collectChildren_keeps_acc cs' p d _)
end

mutual
theorem collectFrames_length_le (n : FigmaNode) (p : String) (d : Nat)
    (fr : List FrameSummary) (h : fr.length ≤ MAX_FRAMES) :
    (collectFrames n p d fr).length ≤ MAX_FRAMES := by
  cases n with
  | mk nid nname ntype nbb nch =>
    rw [collectFrames]
    split
    · exact h
    · split
      · exact h
      · rename_i hcnt
        exact collectChildren_length_le nch p d _
          (pushFrame_length_le nid nname ntype p nbb d fr (by omega))

theorem collectChildren_length_le (cs : List FigmaNode) (p : String) (d : Nat)
    (fr : List FrameSummary) (h : fr.length ≤ MAX_FRAMES) :
    (collectChildren cs p d fr).length ≤ MAX_FRAMES := by
  cases cs with
  | nil => rw [collectChildren]; exact h
  | cons c cs' =>
    rw [collectChildren]
    split
    · exact h
    · exact collectChildren_length_le cs' p d _ (collectFrames_length_le c p (d + 1) fr h)
end

mutual
theorem collectFrames_depth_mem (n : FigmaNode) (p : String) (d : Nat)
    (fr : List FrameSummary) :
    ∀ f ∈ collectFrames n p d fr, f ∈ fr ∨ (d ≤ f.depth ∧ f.depth ≤ MAX_TRAVERSAL_DEPTH) := by
  cases n with
  | mk nid nname ntype nbb nch =>
    rw [collectFrames]
    split
    · exact fun f hf => Or.inl hf
    · split
      · exact fun f hf => Or.inl hf
      · rename_i hd hcnt
        intro f hf
        have hrec := collectChildren_depth_mem nch p d _ f hf
        rcases hrec with hmem | hdep
        · rcases pushFrame_mem nid nname ntype p nbb d fr f hmem with hin | hdepth
          · exact Or.inl hin
          · right
            rw [hdepth]
            omega
        · right; omega

theorem collectChildren_depth_mem (cs : List FigmaNode) (p : String) (d : Nat)
    (fr : List FrameSummary) :
    ∀ f ∈ collectChildren cs p d fr,
      f ∈ fr ∨ (d + 1 ≤ f.depth ∧ f.depth ≤ MAX_TRAVERSAL_DEPTH) := by
  cases cs with
  | nil => rw [collectChildren]; exact fun f hf => Or.inl hf
  | cons c cs' =>
    rw [collectChildren]
    split
    · exact fun f hf => Or.inl hf
    · intro f hf
      rcases collectChildren_depth_mem cs' p d _ f hf with hmem | hdep
      · exact collectFrames_depth_mem c p (d + 1) fr f hmem
      · exact Or.inr hdep
end

theorem extractPages_length_le (ps : List FigmaNode) (fr : List FrameSummary)
    (h : fr.length ≤ MAX_FRAMES) : (extractPages ps fr).length ≤ MAX_FRAMES := by
  induction ps generalizing fr with
  | nil => rw [extractPages]; exact h
  | cons p ps' ih =>
    rw [extractPages]
    split
    · exact h
    · split
      · exact ih _ (collectFrames_length_le _ _ 0 fr h)
      · exact ih _ h

theorem extractPages_depth_mem (ps : List FigmaNode) (fr : List FrameSummary) :
    ∀ f ∈ extractPages ps fr, f ∈ fr ∨ f.depth ≤ MAX_TRAVERSAL_DEPTH := by
  induction ps generalizing fr with
  | nil => rw [extractPages]; exact fun f hf => Or.inl hf
  | cons p ps' ih =>
    rw [extractPages]
    split
    · exact fun f hf => Or.inl hf
    · split
      · intro f hf
        rcases ih _ f hf with hmem | hdep
        · rcases collectFrames_depth_mem _ _ 0 fr f hmem with hmem' | hdep'
          · exact Or.inl hmem'
          · exact Or.inr hdep'.2
        · exact Or.inr hdep
      · exact ih fr

/-! ## Claim theorems: document traversal -/

/-- C1: for every input node tree, `collectFrames` returns at most 500
entries and never emits a frame from a node deeper than the depth ceiling
(10); a call past either ceiling returns the accumulator unchanged, and
everything already collected is preserved (the accumulator is a prefix of
the result). -/
theorem collectFrames_bounded_claim :
    (∀ node p, (collectFrames node p 0 []).length ≤ MAX_FRAMES) ∧
    (∀ node p, ∀ f ∈ collectFrames node p 0 [], f.depth ≤ MAX_TRAVERSAL_DEPTH) ∧
    (∀ node p d fr, MAX_TRAVERSAL_DEPTH < d → collectFrames node p d fr = fr) ∧
    (∀ node p d fr, MAX_FRAMES ≤ fr.length → collectFrames node p d fr = fr) ∧
    (∀ node p d fr, fr <+: collectFrames node p d fr) := by
  refine ⟨fun node p => collectFrames_length_le node p 0 [] (by simp [MAX_FRAMES]),
          fun node p f hf => ?_,
          fun node p d fr h => collectFrames_depth_stop node p d fr h,
          fun node p d fr h => collectFrames_count_stop node p d fr h,
          fun node p d fr => collectFrames_keeps_acc node p d fr⟩
  rcases collectFrames_depth_mem node p 0 [] f hf with hmem | hdep
  · exact absurd hmem (List.not_mem_nil f)
  · exact hdep.2

/-- Sample frame node used by concrete witnesses. -/
def sampleFrameNode : FigmaNode :=
  .mk "1:2" "Hero" "FRAME" (some ⟨0, 0, 375, 812⟩) []

/-- Sample frame summary used by concrete witnesses. -/
def sampleSummary : FrameSummary :=
  { id := "s", name := "S", pageName := "P", width := 1, height := 1, depth := 0 }

theorem collectFrames_bounded_claim_witness :
    collectFrames sampleFrameNode "Page 1" 11 [] = [] ∧
    collectFrames sampleFrameNode "Page 1" 0 (List.replicate 500 sampleSummary)
      = List.replicate 500 sampleSummary := by
  refine ⟨collectFrames_bounded_claim.2.2.1 sampleFrameNode "Page 1" 11 []
            (by simp [MAX_TRAVERSAL_DEPTH]),
          collectFrames_bounded_claim.2.2.2.1 sampleFrameNode "Page 1" 0 _
            (by rw [List.length_replicate]; exact Nat.le_refl 500)⟩

/-- C6: a FRAME node with no bounding box, or with non-positive width or
height, contributes nothing: traversal proceeds to its children only.  A
FRAME node with a strictly positive bounding box (within both ceilings)
contributes exactly its summary. -/
theorem collectFrames_degenerate_claim :
    (∀ nid nname cs p d fr,
       collectFrames (.mk nid nname "FRAME" none cs) p d fr = collectChildren cs p d fr) ∧
    (∀ nid nname bb cs p d fr, bb.width ≤ 0 ∨ bb.height ≤ 0 →
       collectFrames (.mk nid nname "FRAME" (some bb) cs) p d fr
         = collectChildren cs p d fr) ∧
    (∀ nid nname bb cs p d fr, 0 < bb.width → 0 < bb.height →
       d ≤ MAX_TRAVERSAL_DEPTH → fr.length < MAX_FRAMES →
       collectFrames (.mk nid nname "FRAME" (some bb) cs) p d fr
         = collectChildren cs p d (fr ++ [frameSummaryOf nid nname p bb d])) := by
  refine ⟨fun nid nname cs p d fr => ?_, fun nid nname bb cs p d fr hbb => ?_,
          fun nid nname bb cs p d fr hw hh hd hcnt => ?_⟩
  · rw [collectFrames]
    split
    · rename_i hd
      rw [collectChildren_deep cs p d fr (by omega)]
    · split
      · rename_i hcnt
        rw [collectChildren_count_stop cs p d fr (by omega)]
      · simp [pushFrame]
  · rw [collectFrames]
    split
    · rename_i hd
      rw [collectChildren_deep cs p d fr (by omega)]
    · split
      · rename_i hcnt
        rw [collectChildren_count_stop cs p d fr (by omega)]
      · have hneg : ¬(0 < bb.width ∧ 0 < bb.height) := by
          rcases hbb with h | h
          · exact fun hc => absurd hc.1 (not_lt.mpr h)
          · exact fun hc => absurd hc.2 (not_lt.mpr h)
        simp [pushFrame, hneg]
  · rw [collectFrames]
    split
    · omega
    · split
      · omega
      · simp [pushFrame, hw, hh]

theorem collectFrames_degenerate_claim_witness :
    collectFrames (.mk "a" "A" "FRAME" none []) "P" 0 [] = [] ∧
    collectFrames (.mk "b" "B" "FRAME" (some ⟨0, 0, 0, 5⟩) []) "P" 0 [] = [] ∧
    collectFrames (.mk "c" "C" "FRAME" (some ⟨0, 0, 3, 5⟩) []) "P" 0 []
      = [{ id := "c", name := "C", pageName := "P", width := 3, height := 5, depth := 0 }] := by
  refine ⟨?_, ?_, ?_⟩
  · rw [collectFrames_degenerate_claim.1 "a" "A" [] "P" 0 []]
    rw [collectChildren]
  · rw [collectFrames_degenerate_claim.2.1 "b" "B" ⟨0, 0, 0, 5⟩ [] "P" 0 []
        (Or.inl (by norm_num))]
    rw [collectChildren]
  · rw [collectFrames_degenerate_claim.2.2 "c" "C" ⟨0, 0, 3, 5⟩ [] "P" 0 []
        (by norm_num) (by norm_num) (by simp [MAX_TRAVERSAL_DEPTH]) (by simp [MAX_FRAMES])]
    rw [collectChildren]
    simp [frameSummaryOf, jsRound]
    norm_num

/-- C9: `meta.truncated` in the frames response is true exactly when the
returned frames array has the maximal length 500; the array never exceeds
500 entries. -/
theorem framesTruncated_claim (document : FigmaNode) :
    (extractFramesFromDocument document).length ≤ MAX_FRAMES ∧
    (framesTruncated (extractFramesFromDocument document) = true ↔
      (extractFramesFromDocument document).length = MAX_FRAMES) := by
  have hle : (extractFramesFromDocument document).length ≤ MAX_FRAMES :=
    extractPages_length_le document.children [] (by simp [MAX_FRAMES])
  refine ⟨hle, ?_⟩
  unfold framesTruncated
  constructor
  · intro h
    have := of_decide_eq_true h
    omega
  · intro h
    exact decide_eq_true_eq.mpr (by omega)

theorem framesTruncated_claim_witness :
    (extractFramesFromDocument sampleFrameNode).length ≤ MAX_FRAMES :=
  (framesTruncated_claim sampleFrameNode).1

/-! # Symmetric cipher (crypto.ts)

The envelope handling (colon-separated hex fields, length checks, tag
verification) is embedded from the source.  The AES-256-GCM primitive
reached through `crypto.createCipheriv` is an external library; it is
modelled abstractly: GCM is counter mode, so the ciphertext is the
plaintext XOR a keystream determined by (key, iv), and the authentication
tag is a deterministic function of (key, iv, ciphertext).  Plaintext
strings enter the cipher as their UTF-8 bytes (`cipher.update(plaintext,
'utf8')`), so plaintexts are byte lists here. -/

/-- `IV_LENGTH` from crypto.ts (16 bytes). -/
def IV_LENGTH : Nat := 16

/-- `AUTH_TAG_LENGTH` from crypto.ts (16 bytes). -/
def AUTH_TAG_LENGTH : Nat := 16

/-- `KEY_LENGTH` from crypto.ts (32 bytes). -/
def KEY_LENGTH : Nat := 32

/-- Lowercase hex digit of a value below 16, as produced by
`Buffer.toString('hex')`. -/
def toHexChar (n : Nat) : Char :=
  if n < 10 then Char.ofNat (48 + n) else Char.ofNat (87 + n)

/-- Hex digit value of a character, `none` on a non-hex-digit. -/
def fromHexChar (c : Char) : Option Nat :=
  if 48 ≤ c.toNat ∧ c.toNat ≤ 57 then some (c.toNat - 48)
  else if 97 ≤ c.toNat ∧ c.toNat ≤ 102 then some (c.toNat - 87)
  else none

/-- `Buffer.toString('hex')`: two lowercase hex digits per byte. -/
def hexOfBytes : List Nat → List Char
  | [] => []
  | b :: bs => toHexChar (b / 16) :: toHexChar (b % 16) :: hexOfBytes bs

/-- `Buffer.from(s, 'hex')`: lenient hex parsing that stops at the first
invalid or incomplete pair, as Node's Buffer does. -/
def bytesOfHexLenient : List Char → List Nat
  | c1 :: c2 :: cs =>
    match fromHexChar c1, fromHexChar c2 with
    | some h, some l => (h * 16 + l) :: bytesOfHexLenient cs
    | _, _ => []
  | _ => []

/-- `String.prototype.split(':')` on a character list. -/
def splitOnColon : List Char → List (List Char)
  | [] => [[]]
  | c :: cs =>
    if c = ':' then [] :: splitOnColon cs
    else
      match splitOnColon cs with
      | [] => [[c]]
      | p :: ps => (c :: p) :: ps

/-- Abstract AES-256-GCM primitive: keystream generator plus tag function,
with the shape guarantees of the real algorithm (keystream of the
requested length, 16-byte tag, all outputs bytes). -/
structure GcmPrimitive where
  keystream : List Nat → List Nat → Nat → List Nat
  authTag : List Nat → List Nat → List Nat → List Nat
  keystream_length : ∀ k iv n, (keystream k iv n).length = n
  keystream_lt : ∀ k iv n, ∀ b ∈ keystream k iv n, b < 256
  authTag_length : ∀ k iv ct, (authTag k iv ct).length = AUTH_TAG_LENGTH
  authTag_lt : ∀ k iv ct, ∀ b ∈ authTag k iv ct, b < 256

/-- GCM ciphertext: plaintext XOR keystream. -/
def gcmCiphertext (g : GcmPrimitive) (key iv pt : List Nat) : List Nat :=
  List.zipWith Nat.xor pt (g.keystream key iv pt.length)

/-- GCM authentication tag over the ciphertext of `pt`. -/
def gcmTag (g : GcmPrimitive) (key iv pt : List Nat) : List Nat :=
  g.authTag key iv (gcmCiphertext g key iv pt)

/-- The envelope `iv:authTag:ciphertext`, all fields hex-encoded. -/
def mkEnvelope (iv tag ct : List Nat) : List Char :=
  hexOfBytes iv ++ (':' :: (hexOfBytes tag ++ (':' :: hexOfBytes ct)))

/-- Embedding of `encrypt(plaintext)` for a given key and the fresh random
iv drawn by that call. -/
def encryptBytes (g : GcmPrimitive) (key iv pt : List Nat) : List Char :=
  mkEnvelope iv (gcmTag g key iv pt) (gcmCiphertext g key iv pt)

/-- Embedding of `decrypt(encryptedData)`: split into exactly three
colon-separated fields, hex-decode, check IV and tag lengths, verify the
authentication tag, then decipher. -/
def decryptBytes (g : GcmPrimitive) (key : List Nat) (envelope : List Char) :
    Except String (List Nat) :=
  match splitOnColon envelope with
  | [ivHex, tagHex, ctHex] =>
    let iv := bytesOfHexLenient ivHex
    let storedTag := bytesOfHexLenient tagHex
    if iv.length ≠ IV_LENGTH then
      .error "Decryption failed: Invalid IV length"
    else if storedTag.length ≠ AUTH_TAG_LENGTH then
      .error "Decryption failed: Invalid auth tag length"
    else
      let ct := bytesOfHexLenient ctHex
      if g.authTag key iv ct = storedTag then
        .ok (List.zipWith Nat.xor ct (g.keystream key iv ct.length))
      else
        .error "Decryption failed: Unsupported state or unable to authenticate data"
  | _ => .error "Decryption failed: Invalid encrypted data format. Expected: iv:authTag:ciphertext"

/-- `true` on the error branch of `decrypt` (the thrown exception). -/
def isErr : Except String (List Nat) → Bool
  | .error _ => true
  | .ok _ => false

/-! ## Cipher lemmas -/

theorem fromHexChar_toHexChar : ∀ n < 16, fromHexChar (toHexChar n) = some n := by decide

theorem toHexChar_ne_colon : ∀ n < 16, toHexChar n ≠ ':' := by decide

theorem hexOfBytes_nocolon (bs : List Nat) (h : ∀ b ∈ bs, b < 256) :
    ∀ c ∈ hexOfBytes bs, c ≠ ':' := by
  induction bs with
  | nil => intro c hc; simp [hexOfBytes] at hc
  | cons b bs' ih =>
    intro c hc
    have hb : b < 256 := h b (List.mem_cons_self b bs')
    rw [hexOfBytes] at hc
    rcases List.mem_cons.mp hc with h1 | hc2
    · subst h1; exact toHexChar_ne_colon (b / 16) (by omega)
    · rcases List.mem_cons.mp hc2 with h2 | hc3
      · subst h2; exact toHexChar_ne_colon (b % 16) (Nat.mod_lt b (by omega))
      · exact ih (fun x hx => h x (List.mem_cons_of_mem b hx)) c hc3

theorem bytesOfHexLenient_pair (c1 c2 : Char) (cs : List Char) (hn ln : Nat)
    (h1 : fromHexChar c1 = some hn) (h2 : fromHexChar c2 = some ln) :
    bytesOfHexLenient (c1 :: c2 :: cs) = (hn * 16 + ln) :: bytesOfHexLenient cs := by
  rw [bytesOfHexLenient, h1, h2]

theorem bytesOfHexLenient_hexOfBytes (bs : List Nat) (h : ∀ b ∈ bs, b < 256) :
    bytesOfHexLenient (hexOfBytes bs) = bs := by
  induction bs with
  | nil => rfl
  | cons b bs' ih =>
    have hb : b < 256 := h b (List.mem_cons_self b bs')
    rw [hexOfBytes,
        bytesOfHexLenient_pair _ _ _ _ _
          (fromHexChar_toHexChar (b / 16) (by omega))
          (fromHexChar_toHexChar (b % 16) (Nat.mod_lt b (by omega))),
        ih (fun x hx => h x (List.mem_cons_of_mem b hx))]
    congr 1
    omega

theorem splitOnColon_nocolon (a : List Char) (h : ∀ c ∈ a, c ≠ ':') :
    splitOnColon a = [a] := by
  induction a with
  | nil => rfl
  | cons c cs ih =>
    rw [splitOnColon]
    have hc : ¬(c = ':') := h c (List.mem_cons_self c cs)
    rw [if_neg hc, ih (fun x hx => h x (List.mem_cons_of_mem c hx))]

theorem splitOnColon_append (a r : List Char) (h : ∀ c ∈ a, c ≠ ':') :
    splitOnColon (a ++ ':' :: r) = a :: splitOnColon r := by
  induction a with
  | nil => simp [splitOnColon]
  | cons c cs ih =>
    have hc : ¬(c = ':') := h c (List.mem_cons_self c cs)
    rw [List.cons_append, splitOnColon, if_neg hc,
        ih (fun x hx => h x (List.mem_cons_of_mem c hx))]

theorem zipWith_xor_cancel (pt ks : List Nat) (h : pt.length ≤ ks.length) :
    List.zipWith Nat.xor (List.zipWith Nat.xor pt ks) ks = pt := by
  induction pt generalizing ks with
  | nil => simp
  | cons p pt' ih =>
    cases ks with
    | nil => simp at h
    | cons k ks' =>
      simp only [List.zipWith_cons_cons, List.cons.injEq]
      exact ⟨Nat.xor_cancel_right k p, ih ks' (by simpa using h)⟩

theorem zipWith_xor_lt : ∀ (pt ks : List Nat), (∀ b ∈ pt, b < 256) →
    (∀ b ∈ ks, b < 256) → ∀ b ∈ List.zipWith Nat.xor pt ks, b < 256
  | [], _, _, _ => by simp
  | _ :: _, [], _, _ => by simp
  | p :: pt', k :: ks', hpt, hks => by
    intro b hb
    rw [List.zipWith_cons_cons] at hb
    rcases List.mem_cons.mp hb with h1 | h2
    · subst h1
      have hp : p < 2 ^ 8 := hpt p (List.mem_cons_self p pt')
      have hk : k < 2 ^ 8 := hks k (List.mem_cons_self k ks')
      have hx : Nat.xor p k < 2 ^ 8 := Nat.xor_lt_two_pow hp hk
      omega
    · exact zipWith_xor_lt pt' ks' (fun x hx => hpt x (List.mem_cons_of_mem p hx))
        (fun x hx => hks x (List.mem_cons_of_mem k hx)) b h2

/-- Decrypting a well-formed envelope reduces to the tag comparison. -/
theorem decryptBytes_mkEnvelope (g : GcmPrimitive) (key iv tag ct : List Nat)
    (hivlen : iv.length = IV_LENGTH) (hivb : ∀ b ∈ iv, b < 256)
    (htaglen : tag.length = AUTH_TAG_LENGTH) (htagb : ∀ b ∈ tag, b < 256)
    (hctb : ∀ b ∈ ct, b < 256) :
    decryptBytes g key (mkEnvelope iv tag ct) =
      if g.authTag key iv ct = tag then
        .ok (List.zipWith Nat.xor ct (g.keystream key iv ct.length))
      else
        .error "Decryption failed: Unsupported state or unable to authenticate data" := by
  unfold decryptBytes mkEnvelope
  rw [splitOnColon_append _ _ (hexOfBytes_nocolon iv hivb),
      splitOnColon_append _ _ (hexOfBytes_nocolon tag htagb),
      splitOnColon_nocolon _ (hexOfBytes_nocolon ct hctb)]
  simp only [bytesOfHexLenient_hexOfBytes iv hivb,
             bytesOfHexLenient_hexOfBytes tag htagb,
             bytesOfHexLenient_hexOfBytes ct hctb,
             hivlen, htaglen, ne_eq, not_true_eq_false, if_false]

/-! ## Claim theorem: cipher roundtrip and tamper detection -/

/-- C2: with a valid 256-bit key, `decrypt(encrypt(x)) = x` for every
plaintext `x`; tampering with the stored authentication tag always makes
`decrypt` raise, and tampering with a ciphertext byte makes `decrypt`
raise whenever the recomputed GCM tag of the altered ciphertext differs
from the stored one (the guarantee of the authenticated cipher). -/
theorem encrypt_decrypt_claim (g : GcmPrimitive) (key iv pt : List Nat)
    (_hkey : key.length = KEY_LENGTH) (hiv : iv.length = IV_LENGTH)
    (hivb : ∀ b ∈ iv, b < 256) (hpt : ∀ b ∈ pt, b < 256) :
    decryptBytes g key (encryptBytes g key iv pt) = .ok pt ∧
    (∀ i v, v < 256 → (gcmTag g key iv pt).set i v ≠ gcmTag g key iv pt →
      isErr (decryptBytes g key
        (mkEnvelope iv ((gcmTag g key iv pt).set i v) (gcmCiphertext g key iv pt))) = true) ∧
    (∀ i v, v < 256 →
      g.authTag key iv ((gcmCiphertext g key iv pt).set i v) ≠ gcmTag g key iv pt →
      isErr (decryptBytes g key
        (mkEnvelope iv (gcmTag g key iv pt) ((gcmCiphertext g key iv pt).set i v))) = true) := by
  have hksb := g.keystream_lt key iv pt.length
  have hctb : ∀ b ∈ gcmCiphertext g key iv pt, b < 256 :=
    zipWith_xor_lt pt _ hpt hksb
  have htagb : ∀ b ∈ gcmTag g key iv pt, b < 256 := g.authTag_lt key iv _
  have htaglen : (gcmTag g key iv pt).length = AUTH_TAG_LENGTH := g.authTag_length key iv _
  have hctlen : (gcmCiphertext g key iv pt).length = pt.length := by
    unfold gcmCiphertext
    rw [List.length_zipWith, g.keystream_length key iv pt.length, Nat.min_self]
  refine ⟨?_, ?_, ?_⟩
  · rw [encryptBytes, decryptBytes_mkEnvelope g key iv _ _ hiv hivb htaglen htagb hctb,
        gcmTag, if_pos rfl, hctlen]
    unfold gcmCiphertext
    rw [zipWith_xor_cancel pt _ (by rw [g.keystream_length])]
  · intro i v hv hne
    have htagb' : ∀ b ∈ (gcmTag g key iv pt).set i v, b < 256 := by
      intro b hb
      rcases List.mem_or_eq_of_mem_set hb with hmem | heq
      · exact htagb b hmem
      · omega
    rw [decryptBytes_mkEnvelope g key iv _ _ hiv hivb
          (by rw [List.length_set]; exact htaglen) htagb' hctb,
        if_neg (fun h => hne h.symm)]
    rfl
  · intro i v hv hne
    have hctb' : ∀ b ∈ (gcmCiphertext g key iv pt).set i v, b < 256 := by
      intro b hb
      rcases List.mem_or_eq_of_mem_set hb with hmem | heq
      · exact hctb b hmem
      · omega
    rw [decryptBytes_mkEnvelope g key iv _ _ hiv hivb htaglen htagb hctb',
        if_neg hne]
    rfl

/-- Toy instance of the abstract GCM primitive for the concrete witness:
zero keystream and a running-sum tag. -/
def toyGcm : GcmPrimitive where
  keystream := fun _ _ n => List.replicate n 0
  authTag := fun _ _ ct => (ct.sum % 256) :: List.replicate 15 0
  keystream_length := fun _ _ n => List.length_replicate n 0
  keystream_lt := by
    intro k iv n b hb
    rw [List.eq_of_mem_replicate hb]
    omega
  authTag_length := by intro k iv ct; rfl
  authTag_lt := by
    intro k iv ct b hb
    rcases hb with _ | ⟨_, hb⟩
    · exact Nat.mod_lt _ (by omega)
    · rw [List.eq_of_mem_replicate hb]
      omega

theorem encrypt_decrypt_claim_witness :
    decryptBytes toyGcm (List.replicate 32 7) (encryptBytes toyGcm (List.replicate 32 7)
      (List.replicate 16 1) [104, 105]) = .ok [104, 105] ∧
    isErr (decryptBytes toyGcm (List.replicate 32 7)
      (mkEnvelope (List.replicate 16 1)
        ((gcmTag toyGcm (List.replicate 32 7) (List.replicate 16 1) [104, 105]).set 0 3)
        (gcmCiphertext toyGcm (List.replicate 32 7) (List.replicate 16 1) [104, 105]))) = true ∧
    isErr (decryptBytes toyGcm (List.replicate 32 7)
      (mkEnvelope (List.replicate 16 1)
        (gcmTag toyGcm (List.replicate 32 7) (List.replicate 16 1) [104, 105])
        ((gcmCiphertext toyGcm (List.replicate 32 7) (List.replicate 16 1) [104, 105]).set 0 9))) = true := by
  have hmain := encrypt_decrypt_claim toyGcm (List.replicate 32 7) (List.replicate 16 1)
    [104, 105] (by decide) (by decide)
    (by intro b hb; rw [List.eq_of_mem_replicate hb]; omega)
    (by decide)
  refine ⟨hmain.1, hmain.2.1 0 3 (by omega) (by decide), hmain.2.2 0 9 (by omega) (by decide)⟩

/-! # Figma API client (token refresh and access-token lookup)

External effects of the source functions are explicit parameters: `now`
is `Date.now()`, `config` is the FIGMA_CLIENT_ID/SECRET pair when
configured, `response` is the outcome of the provider's token endpoint
call, and `encryptStored` / `decryptStored` are the encryption applied
before storing and the best-effort decryption on read. -/

/-- FigmaCredential row (times in milliseconds since epoch). -/
structure FigmaCredential where
  id : Nat
  projectId : String
  accessToken : String
  refreshToken : String
  accessTokenExpiresAt : Int
  updatedAt : Int
deriving DecidableEq, Repr

/-- Body of a successful token-refresh response (`expires_in` in seconds). -/
structure FigmaTokenRefreshResponse where
  access_token : String
  refresh_token : String
  expires_in : Int
deriving DecidableEq, Repr

/-- The `FigmaApiError` payload (status code and endpoint). -/
structure FigmaApiErr where
  statusCode : Nat
  endpoint : String
deriving DecidableEq, Repr

/-- `expiryBuffer`: 2 minutes in milliseconds. -/
def expiryBufferMs : Int := 2 * 60 * 1000

/-- `isExpiringSoon`: the recorded expiry is less than 2 minutes after now. -/
def isExpiringSoon (credential : FigmaCredential) (now : Int) : Bool :=
  credential.accessTokenExpiresAt - now < expiryBufferMs

/-- Embedding of `refreshAccessTokenIfNeeded(credential)`. -/
def refreshAccessTokenIfNeeded (credential : FigmaCredential) (now : Int)
    (config : Option (String × String))
    (response : Except Nat FigmaTokenRefreshResponse)
    (encryptStored : String → String) : Except FigmaApiErr FigmaCredential :=
  if ¬ isExpiringSoon credential now then
    .ok credential
  else
    match config with
    | none => .error ⟨500, "/api/oauth/token"⟩
    | some _ =>
      match response with
      | .error status => .error ⟨status, "/api/oauth/token"⟩
      | .ok data =>
        .ok { credential with
              accessToken := encryptStored data.access_token
              refreshToken := encryptStored data.refresh_token
              accessTokenExpiresAt := now + data.expires_in * 1000
              updatedAt := now }

/-- The error raised by the frames route's upstream calls: either a
`FigmaApiError` or a plain `Error` carrying only a message. -/
inductive FetchError where
  | figmaApi (statusCode : Nat) (endpoint : String)
  | generic (message : String)
deriving DecidableEq, Repr

/-- The message of the error thrown by `getFigmaAccessToken` when no
credential row exists for the project. -/
def noCredentialsMessage (projectId : String) : String :=
  "Figma credentials not found for project " ++ projectId

/-- Embedding of `getFigmaAccessToken(projectId)`: load the credential
(`credential` parameter), fail when absent, refresh if needed, then
best-effort-decrypt the stored access token. -/
def getFigmaAccessToken (credential : Option FigmaCredential) (projectId : String)
    (now : Int) (config : Option (String × String))
    (response : Except Nat FigmaTokenRefreshResponse)
    (encryptStored decryptStored : String → String) : Except FetchError String :=
  match credential with
  | none => .error (.generic (noCredentialsMessage projectId))
  | some cred =>
    match refreshAccessTokenIfNeeded cred now config response encryptStored with
    | .error e => .error (.figmaApi e.statusCode e.endpoint)
    | .ok fresh => .ok (decryptStored fresh.accessToken)

/-- Does the needle occur at the start of the hay? -/
def startsWithList : List Char → List Char → Bool
  | _, [] => true
  | [], _ :: _ => false
  | h :: hs, n :: ns => h = n && startsWithList hs ns

/-- Does the needle occur anywhere in the hay? -/
def hasSubstrList : List Char → List Char → Bool
  | _, [] => true
  | [], _ :: _ => false
  | h :: hs, n :: ns => startsWithList (h :: hs) (n :: ns) || hasSubstrList hs (n :: ns)

/-- `String.prototype.includes`. -/
def strIncludes (hay needle : String) : Bool :=
  hasSubstrList hay.data needle.data

/-- Status and `needsOAuth` flag of a frames-route response. -/
structure RouteResult where
  status : Nat
  needsOAuth : Bool
deriving DecidableEq, Repr

/-- Control flow of `GET /api/figma/frames` after query validation
(route.ts lines 205-345): project lookup, `figmaFileKey` check, the
credential-existence pre-check, then the fetch error mapping (FigmaApiError
status codes 404/403/other; a generic error is re-thrown to the outer
500 handler unless its message contains 'No Figma credentials'). -/
def framesRouteGET (project : Option (Option String)) (credentialExists : Bool)
    (fetchResult : Except FetchError FigmaNode) : RouteResult :=
  match project with
  | none => ⟨404, false⟩
  | some fileKey? =>
    match fileKey? with
    | none => ⟨400, false⟩
    | some _ =>
      if ¬ credentialExists then ⟨400, true⟩
      else
        match fetchResult with
        | .error (.figmaApi statusCode _) =>
          if statusCode = 404 then ⟨404, false⟩
          else if statusCode = 403 then ⟨403, false⟩
          else ⟨statusCode, false⟩
        | .error (.generic message) =>
          if strIncludes message "No Figma credentials" then ⟨400, true⟩
          else ⟨500, false⟩
        | .ok _ => ⟨200, false⟩

/-! ## Claim theorems: refresh policy (C4) and needsOAuth handling (C5) -/

/-- C4 as stated is false: a refresh triggered with the expiry less than
2 minutes away stores `now + expires_in` seconds, which is NOT strictly
greater than `now + 2 minutes` when the provider returns a short
`expires_in` (here 60 seconds). -/
theorem refresh_policy_counterexample :
    isExpiringSoon ⟨1, "p1", "tokA", "tokR", 100000, 0⟩ 0 = true ∧
    refreshAccessTokenIfNeeded ⟨1, "p1", "tokA", "tokR", 100000, 0⟩ 0
        (some ("cid", "secret")) (.ok ⟨"tokA2", "tokR2", 60⟩) id
      = .ok ⟨1, "p1", "tokA2", "tokR2", 60000, 0⟩ ∧
    ¬((0 : Int) + expiryBufferMs < 60000) := by
  refine ⟨by decide, rfl, by decide⟩

/-- C4 amended: no refresh happens (the credential is returned unchanged)
when the recorded expiry is at least 2 minutes away; when it is less than
2 minutes away and the configured refresh succeeds, the stored credential
keeps its id and records expiry `now + expires_in` seconds, which exceeds
`now + 2 minutes` exactly when the provider's `expires_in` exceeds 120
seconds. -/
theorem refresh_policy_claim (credential : FigmaCredential) (now : Int)
    (config : Option (String × String))
    (response : Except Nat FigmaTokenRefreshResponse)
    (encryptStored : String → String) :
    (¬ credential.accessTokenExpiresAt - now < expiryBufferMs →
       refreshAccessTokenIfNeeded credential now config response encryptStored
         = .ok credential) ∧
    (∀ cid csecret data, credential.accessTokenExpiresAt - now < expiryBufferMs →
       config = some (cid, csecret) → response = .ok data →
       ∃ updated,
         refreshAccessTokenIfNeeded credential now config response encryptStored
           = .ok updated ∧
         updated.id = credential.id ∧
         updated.accessTokenExpiresAt = now + data.expires_in * 1000 ∧
         (120 < data.expires_in → now + expiryBufferMs < updated.accessTokenExpiresAt)) := by
  constructor
  · intro h
    have hcond : ¬(isExpiringSoon credential now = true) := by
      unfold isExpiringSoon
      simp only [decide_eq_true_eq]
      exact h
    unfold refreshAccessTokenIfNeeded
    rw [if_pos hcond]
  · intro cid csecret data hsoon hcfg hresp
    subst hcfg
    subst hresp
    have hcond : isExpiringSoon credential now = true := by
      unfold isExpiringSoon
      simp only [decide_eq_true_eq]
      exact hsoon
    refine ⟨{ credential with
              accessToken := encryptStored data.access_token
              refreshToken := encryptStored data.refresh_token
              accessTokenExpiresAt := now + data.expires_in * 1000
              updatedAt := now }, ?_, rfl, rfl, ?_⟩
    · unfold refreshAccessTokenIfNeeded
      rw [if_neg (fun hn => hn hcond)]
    · intro hlong
      show now + expiryBufferMs < now + data.expires_in * 1000
      have hb : expiryBufferMs = 120000 := by decide
      omega

theorem refresh_policy_claim_witness :
    refreshAccessTokenIfNeeded ⟨1, "p1", "tokA", "tokR", 10000000, 0⟩ 0 none
        (.error 500) id = .ok ⟨1, "p1", "tokA", "tokR", 10000000, 0⟩ ∧
    (∃ updated,
       refreshAccessTokenIfNeeded ⟨1, "p1", "tokA", "tokR", 100000, 0⟩ 0
           (some ("cid", "secret")) (.ok ⟨"tokA2", "tokR2", 86400⟩) id
         = .ok updated ∧
       updated.id = 1 ∧
       updated.accessTokenExpiresAt = 0 + (86400 : Int) * 1000 ∧
       (120 < (86400 : Int) → (0 : Int) + expiryBufferMs < updated.accessTokenExpiresAt)) :=
  ⟨(refresh_policy_claim ⟨1, "p1", "tokA", "tokR", 10000000, 0⟩ 0 none (.error 500) id).1
      (by decide),
   (refresh_policy_claim ⟨1, "p1", "tokA", "tokR", 100000, 0⟩ 0 (some ("cid", "secret"))
      (.ok ⟨"tokA2", "tokR2", 86400⟩) id).2 "cid" "secret" ⟨"tokA2", "tokR2", 86400⟩
      (by decide) rfl rfl⟩

/-- C5 as stated is false: the no-credential failure raised by
`getFigmaAccessToken` carries the message "Figma credentials not found for
project ...", which the frames route's catch block does NOT recognize (it
tests for the substring 'No Figma credentials'), so an error with exactly
that message reaching the catch maps to a generic 500, not to 400 with
needsOAuth. -/
theorem needsOAuth_recognition_counterexample :
    getFigmaAccessToken none "p1" 0 none (.error 0) id id
      = .error (.generic (noCredentialsMessage "p1")) ∧
    strIncludes (noCredentialsMessage "p1") "No Figma credentials" = false ∧
    framesRouteGET (some (some "fileKey")) true
        (.error (.generic (noCredentialsMessage "p1"))) = ⟨500, false⟩ := by
  refine ⟨rfl, by decide, by decide⟩

/-- C5 amended: for every project with no stored credential the frames
route answers 400 with needsOAuth:true — but through its explicit
credential-existence pre-check, not through error recognition:
`getFigmaAccessToken` raises a plain error whose message ("Figma
credentials not found for project ...") fails the catch block's
'No Figma credentials' substring test. -/
theorem needsOAuth_claim (fileKey projectId : String) (now : Int)
    (config : Option (String × String))
    (response : Except Nat FigmaTokenRefreshResponse)
    (encryptStored decryptStored : String → String)
    (fetchResult : Except FetchError FigmaNode) :
    framesRouteGET (some (some fileKey)) false fetchResult = ⟨400, true⟩ ∧
    getFigmaAccessToken none projectId now config response encryptStored decryptStored
      = .error (.generic (noCredentialsMessage projectId)) ∧
    strIncludes (noCredentialsMessage "p1") "No Figma credentials" = false := by
  refine ⟨rfl, rfl, by decide⟩

/-! # Baseline snapshot upsert (createBaselineSnapshotForProject, step 7)

The transaction body: `findFirst` on (projectId, figmaFrameId) ordered by
createdAt descending, then `update` in place or `create`.  The store is
the BaselineSnapshot table as a list of rows in insertion order; `nextId`
is the id the database would assign to a newly created row, and `now` its
createdAt. -/

/-- A BaselineSnapshot row. -/
structure BaselineSnapshotRecord where
  id : Nat
  projectId : String
  figmaFileKey : String
  figmaFrameId : String
  data : String
  createdAt : Int
deriving DecidableEq, Repr

/-- The `where` clause of the findFirst: both keys equal. -/
def snapshotMatches (projectId figmaFrameId : String) (r : BaselineSnapshotRecord) : Bool :=
  r.projectId = projectId ∧ r.figmaFrameId = figmaFrameId

/-- `findFirst` with `orderBy createdAt desc`: the matching row with the
greatest createdAt (first in insertion order on ties, as a stable sort). -/
def findLatestSnapshot (store : List BaselineSnapshotRecord)
    (projectId figmaFrameId : String) : Option BaselineSnapshotRecord :=
  (store.filter (snapshotMatches projectId figmaFrameId)).foldl
    (fun best r =>
      match best with
      | none => some r
      | some b => if b.createdAt < r.createdAt then some r else some b)
    none

/-- The upsert transaction: update the existing row in place (same id and
createdAt, new data/fileKey/frameId) or create a new row.  Returns the new
table state and the returned snapshot. -/
def upsertBaselineSnapshot (store : List BaselineSnapshotRecord) (nextId : Nat)
    (now : Int) (projectId figmaFileKey figmaFrameId payload : String) :
    List BaselineSnapshotRecord × BaselineSnapshotRecord :=
  match findLatestSnapshot store projectId figmaFrameId with
  | some existing =>
    let updated := { existing with
                     data := payload
                     figmaFileKey := figmaFileKey
                     figmaFrameId := figmaFrameId }
    (store.map fun r => if r.id = existing.id then updated else r, updated)
  | none =>
    let created : BaselineSnapshotRecord :=
      ⟨nextId, projectId, figmaFileKey, figmaFrameId, payload, now⟩
    (store ++ [created], created)

/-- The row created by the upsert's create branch. -/
def createdSnapshot (nextId : Nat) (now : Int)
    (projectId fileKey frameId payload : String) : BaselineSnapshotRecord :=
  ⟨nextId, projectId, fileKey, frameId, payload, now⟩

/-! ## Claim theorem: upsert idempotence (C3) -/

/-- C3: starting from a table with no snapshot for (projectId, frameId),
running the baseline upsert twice leaves exactly one row for that pair;
the second run updates the first run's row in place — same id, same
createdAt, no new row — and stores the second payload. -/
theorem baseline_upsert_claim (store : List BaselineSnapshotRecord)
    (nextId₁ nextId₂ : Nat) (now₁ now₂ : Int)
    (projectId fileKey frameId payload₁ payload₂ : String)
    (hclean : store.filter (snapshotMatches projectId frameId) = [])
    (hfresh : ∀ r ∈ store, r.id ≠ nextId₁) :
    ((upsertBaselineSnapshot
        (upsertBaselineSnapshot store nextId₁ now₁ projectId fileKey frameId payload₁).1
        nextId₂ now₂ projectId fileKey frameId payload₂).1.filter
          (snapshotMatches projectId frameId)).length = 1 ∧
    (upsertBaselineSnapshot
        (upsertBaselineSnapshot store nextId₁ now₁ projectId fileKey frameId payload₁).1
        nextId₂ now₂ projectId fileKey frameId payload₂).2.id
      = (upsertBaselineSnapshot store nextId₁ now₁ projectId fileKey frameId payload₁).2.id ∧
    (upsertBaselineSnapshot
        (upsertBaselineSnapshot store nextId₁ now₁ projectId fileKey frameId payload₁).1
        nextId₂ now₂ projectId fileKey frameId payload₂).1.length
      = (upsertBaselineSnapshot store nextId₁ now₁ projectId fileKey frameId payload₁).1.length ∧
    (upsertBaselineSnapshot
        (upsertBaselineSnapshot store nextId₁ now₁ projectId fileKey frameId payload₁).1
        nextId₂ now₂ projectId fileKey frameId payload₂).2.createdAt
      = (upsertBaselineSnapshot store nextId₁ now₁ projectId fileKey frameId payload₁).2.createdAt ∧
    (upsertBaselineSnapshot
        (upsertBaselineSnapshot store nextId₁ now₁ projectId fileKey frameId payload₁).1
        nextId₂ now₂ projectId fileKey frameId payload₂).2.data = payload₂ := by
  have hfind₁ : findLatestSnapshot store projectId frameId = none := by
    rw [findLatestSnapshot, hclean]
    rfl
  have hfirst : upsertBaselineSnapshot store nextId₁ now₁ projectId fileKey frameId payload₁
      = (store ++ [createdSnapshot nextId₁ now₁ projectId fileKey frameId payload₁],
         createdSnapshot nextId₁ now₁ projectId fileKey frameId payload₁) := by
    rw [upsertBaselineSnapshot, hfind₁]
    rfl
  have hmatch : snapshotMatches projectId frameId
      (createdSnapshot nextId₁ now₁ projectId fileKey frameId payload₁) = true := by
    simp [snapshotMatches, createdSnapshot]
  have hmatch₂ : snapshotMatches projectId frameId
      (createdSnapshot nextId₁ now₁ projectId fileKey frameId payload₂) = true := by
    simp [snapshotMatches, createdSnapshot]
  have hfilter₁ : (store ++ [createdSnapshot nextId₁ now₁ projectId fileKey frameId payload₁]).filter
      (snapshotMatches projectId frameId)
      = [createdSnapshot nextId₁ now₁ projectId fileKey frameId payload₁] := by
    rw [List.filter_append, hclean, List.nil_append, List.filter_cons, if_pos hmatch]
    rfl
  have hfind₂ : findLatestSnapshot
      (store ++ [createdSnapshot nextId₁ now₁ projectId fileKey frameId payload₁])
      projectId frameId
      = some (createdSnapshot nextId₁ now₁ projectId fileKey frameId payload₁) := by
    rw [findLatestSnapshot, hfilter₁]
    rfl
  have hmapid : store.map
      (fun r => if r.id = nextId₁
                then (⟨nextId₁, projectId, fileKey, frameId, payload₂, now₁⟩ :
                        BaselineSnapshotRecord)
                else r) = store := by
    conv_rhs => rw [← List.map_id store]
    apply List.map_congr_left
    intro r hr
    rw [if_neg (hfresh r hr)]
    rfl
  have hsecond : upsertBaselineSnapshot
      (store ++ [createdSnapshot nextId₁ now₁ projectId fileKey frameId payload₁])
      nextId₂ now₂ projectId fileKey frameId payload₂
      = (store ++ [createdSnapshot nextId₁ now₁ projectId fileKey frameId payload₂],
         createdSnapshot nextId₁ now₁ projectId fileKey frameId payload₂) := by
    rw [upsertBaselineSnapshot, hfind₂]
    dsimp only [createdSnapshot]
    rw [List.map_append, hmapid]
    rw [Prod.mk.injEq]
    constructor
    · simp
    · rfl
  rw [hfirst]
  rw [hsecond]
  refine ⟨?_, rfl, by simp [createdSnapshot], rfl, rfl⟩
  rw [List.filter_append, hclean, List.nil_append, List.filter_cons, if_pos hmatch₂]
  rfl

theorem baseline_upsert_claim_witness :
    ((upsertBaselineSnapshot
        (upsertBaselineSnapshot [] 1 100 "proj" "fk" "1:2" "data1").1
        2 200 "proj" "fk" "1:2" "data2").1.filter
          (snapshotMatches "proj" "1:2")).length = 1 ∧
    (upsertBaselineSnapshot
        (upsertBaselineSnapshot [] 1 100 "proj" "fk" "1:2" "data1").1
        2 200 "proj" "fk" "1:2" "data2").2.id
      = (upsertBaselineSnapshot [] 1 100 "proj" "fk" "1:2" "data1").2.id ∧
    (upsertBaselineSnapshot
        (upsertBaselineSnapshot [] 1 100 "proj" "fk" "1:2" "data1").1
        2 200 "proj" "fk" "1:2" "data2").1.length
      = (upsertBaselineSnapshot [] 1 100 "proj" "fk" "1:2" "data1").1.length ∧
    (upsertBaselineSnapshot
        (upsertBaselineSnapshot [] 1 100 "proj" "fk" "1:2" "data1").1
        2 200 "proj" "fk" "1:2" "data2").2.createdAt
      = (upsertBaselineSnapshot [] 1 100 "proj" "fk" "1:2" "data1").2.createdAt ∧
    (upsertBaselineSnapshot
        (upsertBaselineSnapshot [] 1 100 "proj" "fk" "1:2" "data1").1
        2 200 "proj" "fk" "1:2" "data2").2.data = "data2" :=
  baseline_upsert_claim [] 1 2 100 200 "proj" "fk" "1:2" "data1" "data2" rfl
    (by intro r hr; simp at hr)

/-! # Token extraction (baseline generator)

Figma variables carry mode values of unknown runtime type; the JavaScript
`typeof` dispatch of the source is modelled by an explicit value sum.
JavaScript object records (`Record<string, T>`) are association lists in
insertion order, with assignment replacing an existing key in place. -/

/-- A runtime mode value: a color object, a number, a string, a boolean,
or null. -/
inductive VariableValue where
  | colorValue (r g b a : Option Rat)
  | numberValue (x : Rat)
  | stringValue (s : String)
  | booleanValue (b : Bool)
  | nullValue
deriving DecidableEq, Repr

/-- A Figma variable: name, resolved type, values by mode in declaration
order. -/
structure FigmaVariable where
  name : String
  resolvedType : String
  valuesByMode : List (String × VariableValue)
deriving DecidableEq, Repr

/-- 0-255 integer channels of a color token. -/
structure RGB where
  r : Int
  g : Int
  b : Int
deriving DecidableEq, Repr

/-- ColorToken from the shared types: hex string, integer channels,
opacity. -/
structure ColorToken where
  hex : String
  rgb : RGB
  opacity : Rat
deriving DecidableEq, Repr

/-- The `toHex` helper of `rgbToHex`: clamp to [0,255], render base-16,
pad to two digits. -/
def toHex (n : Int) : String :=
  let m := (max 0 (min 255 n)).toNat
  let hexStr := if m < 16 then String.mk [toHexChar m]
                else String.mk [toHexChar (m / 16), toHexChar (m % 16)]
  if hexStr.length = 1 then "0" ++ hexStr else hexStr

/-- Embedding of `rgbToHex(r, g, b)`. -/
def rgbToHex (r g b : Int) : String :=
  "#" ++ toHex r ++ toHex g ++ toHex b

/-- JavaScript object assignment `record[key] = value`: replace in place
when the key exists, append otherwise. -/
def recordSet (m : List (String × α)) (k : String) (v : α) : List (String × α) :=
  if m.any (fun p => p.1 = k) then m.map (fun p => if p.1 = k then (k, v) else p)
  else m ++ [(k, v)]

/-- The loop body of `extractColorTokens` for one `[id, variable]` entry:
skip non-COLOR variables, take the first declared mode's value, and
convert it when it is an object (JavaScript `typeof === 'object'` and not
null); `color.r || 0` defaults each missing channel to 0 and
`color.a ?? 1` defaults missing alpha to 1. -/
def colorTokenOfVariable (id : String) (v : FigmaVariable) :
    Option (String × ColorToken) :=
  if v.resolvedType ≠ "COLOR" then none
  else
    let name := if v.name = "" then "color-" ++ id else v.name
    match (v.valuesByMode.map Prod.snd).head? with
    | some (VariableValue.colorValue r g b a) =>
      let rr := jsRound (r.getD 0 * 255)
      let gg := jsRound (g.getD 0 * 255)
      let bb := jsRound (b.getD 0 * 255)
      some (name, { hex := rgbToHex rr gg bb, rgb := ⟨rr, gg, bb⟩, opacity := a.getD 1 })
    | _ => none

/-- Embedding of `extractColorTokens(variables)`. -/
def extractColorTokens (vars : List (String × FigmaVariable)) :
    List (String × ColorToken) :=
  vars.foldl
    (fun colors p =>
      match colorTokenOfVariable p.1 p.2 with
      | some (name, token) => recordSet colors name token
      | none => colors)
    []

/-- `String.prototype.toLowerCase` on the ASCII range (the heuristic
substrings below are all ASCII). -/
def jsToLowerChar (c : Char) : Char :=
  if 65 ≤ c.toNat ∧ c.toNat ≤ 90 then Char.ofNat (c.toNat + 32) else c

/-- Lowercased copy of a string. -/
def jsToLower (s : String) : String := String.mk (s.data.map jsToLowerChar)

/-- The spacing name heuristic of `extractSpacingTokens`
(case-insensitive substring test). -/
def spacingNameMatches (name : String) : Bool :=
  strIncludes (jsToLower name) "spacing" || strIncludes (jsToLower name) "space" ||
  strIncludes (jsToLower name) "gap" || strIncludes (jsToLower name) "margin" ||
  strIncludes (jsToLower name) "padding"

/-- The loop body of `extractSpacingTokens` for one `[id, variable]`
entry: skip non-FLOAT variables, apply the name heuristic to
`name || 'spacing-' + id`, and keep the first declared mode's value when
it is a number. -/
def spacingEntryOfVariable (id : String) (v : FigmaVariable) :
    Option (String × Rat) :=
  if v.resolvedType ≠ "FLOAT" then none
  else
    let name := if v.name = "" then "spacing-" ++ id else v.name
    if ¬ spacingNameMatches name then none
    else
      match (v.valuesByMode.map Prod.snd).head? with
      | some (VariableValue.numberValue x) => some (name, x)
      | _ => none

/-- Embedding of `extractSpacingTokens(variables)`. -/
def extractSpacingTokens (vars : List (String × FigmaVariable)) :
    List (String × Rat) :=
  vars.foldl
    (fun spacing p =>
      match spacingEntryOfVariable p.1 p.2 with
      | some (name, value) => recordSet spacing name value
      | none => spacing)
    []

/-! ## Claim theorems: color (C7) and spacing (C8) extraction -/

/-- C7: a color-resolved variable with a name is converted from its first
declared mode's value: each RGBA channel in [0,1] becomes a rounded 0-255
integer, alpha becomes the opacity, and the hex rendering excludes alpha;
in particular `{r:1, g:0, b:0, a:0.5}` yields
`{hex:"#ff0000", rgb:{r:255,g:0,b:0}, opacity:0.5}`. -/
theorem color_token_claim :
    (∀ id v modeId r g b a rest, v.resolvedType = "COLOR" → v.name ≠ "" →
       v.valuesByMode = (modeId, VariableValue.colorValue r g b a) :: rest →
       colorTokenOfVariable id v
         = some (v.name,
             { hex := rgbToHex (jsRound (r.getD 0 * 255)) (jsRound (g.getD 0 * 255))
                        (jsRound (b.getD 0 * 255))
               rgb := ⟨jsRound (r.getD 0 * 255), jsRound (g.getD 0 * 255),
                       jsRound (b.getD 0 * 255)⟩
               opacity := a.getD 1 })) ∧
    extractColorTokens
        [("v1", ⟨"Red", "COLOR",
            [("1:0", .colorValue (some 1) (some 0) (some 0) (some (1 / 2)))]⟩)]
      = [("Red", { hex := "#ff0000", rgb := ⟨255, 0, 0⟩, opacity := 1 / 2 })] := by
  constructor
  · intro id v modeId r g b a rest hty hname hvals
    unfold colorTokenOfVariable
    rw [if_neg (by rw [hty]; simp), hvals]
    dsimp only [List.map_cons, List.head?]
    rw [if_neg hname]
  · have h255 : jsRound ((255 : Rat)) = 255 := by norm_num [jsRound]
    have h0 : jsRound ((0 : Rat)) = 0 := by norm_num [jsRound]
    simp only [extractColorTokens, List.foldl, colorTokenOfVariable]
    norm_num [recordSet, h255, h0]
    decide

theorem color_token_claim_witness :
    colorTokenOfVariable "v2"
        ⟨"Teal", "COLOR", [("1:0", VariableValue.colorValue (some 0) (some 1) (some 1) none)]⟩
      = some ("Teal",
          { hex := rgbToHex (jsRound ((some (0 : Rat)).getD 0 * 255))
                     (jsRound ((some (1 : Rat)).getD 0 * 255))
                     (jsRound ((some (1 : Rat)).getD 0 * 255))
            rgb := ⟨jsRound ((some (0 : Rat)).getD 0 * 255),
                    jsRound ((some (1 : Rat)).getD 0 * 255),
                    jsRound ((some (1 : Rat)).getD 0 * 255)⟩
            opacity := (none : Option Rat).getD 1 }) :=
  color_token_claim.1 "v2"
    ⟨"Teal", "COLOR", [("1:0", VariableValue.colorValue (some 0) (some 1) (some 1) none)]⟩
    "1:0" (some 0) (some 1) (some 1) none [] rfl (by decide) rfl

/-- C8 as stated is false in its "only if" direction: a FLOAT variable
whose own name is empty falls back to the key `spacing-<id>`, which
contains "spacing", so the variable is included even though its name
contains none of the family substrings. -/
theorem spacing_name_counterexample :
    extractSpacingTokens [("vid", ⟨"", "FLOAT", [("1:0", .numberValue 24)]⟩)]
      = [("spacing-vid", (24 : Rat))] ∧
    spacingNameMatches "" = false := by
  exact ⟨rfl, by decide⟩

/-- C8 amended: the spacing extractor keeps a variable exactly when it is
FLOAT-resolved, its effective name (the variable's name, falling back to
`spacing-<id>` when the name is empty) contains one of
spacing/space/gap/margin/padding case-insensitively, and its first
declared mode's value is a number; "Spacing/Large" with value 24 yields
`{"Spacing/Large": 24}` and "Icon Size" is excluded. -/
theorem spacing_token_claim :
    (∀ id v, spacingEntryOfVariable id v ≠ none ↔
       (v.resolvedType = "FLOAT" ∧
        spacingNameMatches (if v.name = "" then "spacing-" ++ id else v.name) = true ∧
        ∃ modeId x rest, v.valuesByMode = (modeId, VariableValue.numberValue x) :: rest)) ∧
    extractSpacingTokens [("v1", ⟨"Spacing/Large", "FLOAT", [("1:0", .numberValue 24)]⟩)]
      = [("Spacing/Large", (24 : Rat))] ∧
    extractSpacingTokens [("v2", ⟨"Icon Size", "FLOAT", [("1:0", .numberValue 24)]⟩)] = [] := by
  refine ⟨?_, rfl, rfl⟩
  intro id v
  unfold spacingEntryOfVariable
  by_cases hft : v.resolvedType = "FLOAT"
  · rw [if_neg (fun hn => hn hft)]
    dsimp only
    by_cases hnm : spacingNameMatches (if v.name = "" then "spacing-" ++ id else v.name) = true
    · rw [if_neg (fun hn => hn hnm)]
      cases hvb : v.valuesByMode with
      | nil =>
        dsimp only [List.map_nil, List.head?]
        constructor
        · intro h
          exact absurd rfl h
        · rintro ⟨-, -, modeId', x, rest, hcons⟩
          exact List.noConfusion hcons
      | cons hd tl =>
        obtain ⟨modeId, val⟩ := hd
        dsimp only [List.map_cons, List.head?_cons]
        rcases val with ⟨r, g, b, a⟩ | x | sv | bv | -
        · constructor
          · intro h
            exact absurd rfl h
          · rintro ⟨-, -, modeId', x', rest, hcons⟩
            injection hcons with h1 h2
            injection h1 with h1a h1b
            exact VariableValue.noConfusion h1b
        · constructor
          · intro _
            exact ⟨hft, hnm, modeId, x, tl, rfl⟩
          · intro _ hc
            exact Option.noConfusion hc
        · constructor
          · intro h
            exact absurd rfl h
          · rintro ⟨-, -, modeId', x', rest, hcons⟩
            injection hcons with h1 h2
            injection h1 with h1a h1b
            exact VariableValue.noConfusion h1b
        · constructor
          · intro h
            exact absurd rfl h
          · rintro ⟨-, -, modeId', x', rest, hcons⟩
            injection hcons with h1 h2
            injection h1 with h1a h1b
            exact VariableValue.noConfusion h1b
        · constructor
          · intro h
            exact absurd rfl h
          · rintro ⟨-, -, modeId', x', rest, hcons⟩
            injection hcons with h1 h2
            injection h1 with h1a h1b
            exact VariableValue.noConfusion h1b
    · rw [if_pos hnm]
      constructor
      · intro h
        exact absurd rfl h
      · rintro ⟨-, hm, -⟩
        exact absurd hm hnm
  · rw [if_pos hft]
    constructor
    · intro h
      exact absurd rfl h
    · rintro ⟨hf, -, -⟩
      exact absurd hf hft

/-! # Component extraction (extractComponentsFromNode) -/

/-- `MAX_DEPTH` of `extractComponentsFromNode`. -/
def COMPONENT_MAX_DEPTH : Nat := 10

/-- Integer-rounded bounding box of an extracted component. -/
structure ComponentBounds where
  x : Int
  y : Int
  width : Int
  height : Int
deriving DecidableEq, Repr

/-- An entry of the extracted component list. -/
structure ComponentSummary where
  id : String
  name : String
  type : String
  bounds : ComponentBounds
deriving DecidableEq, Repr

/-- The component-like node types. -/
def isComponentType (t : String) : Bool :=
  t = "COMPONENT" || t = "INSTANCE" || t = "FRAME" || t = "GROUP"

/-- The self-entry of `extractComponentsFromNode`: the node itself when it
is component-like and carries a positive-area bounding box
(`name || 'Unnamed'`, coordinates and dimensions rounded). -/
def componentSelfEntry (nid nname ntype : String) (nbb : Option FigmaBoundingBox) :
    List ComponentSummary :=
  match nbb with
  | some bb =>
    if isComponentType ntype = true then
      if 0 < bb.width ∧ 0 < bb.height then
        [{ id := nid
           name := if nname = "" then "Unnamed" else nname
           type := ntype
           bounds := ⟨jsRound bb.x, jsRound bb.y, jsRound bb.width, jsRound bb.height⟩ }]
      else []
    else []
  | none => []

mutual
/-- Embedding of `extractComponentsFromNode(node, depth)`: depth ceiling,
self-entry, then the children's components appended in order. -/
def extractComponentsFromNode : FigmaNode → Nat → List ComponentSummary
  | .mk nid nname ntype nbb nchildren, depth =>
    if COMPONENT_MAX_DEPTH < depth then []
    else componentSelfEntry nid nname ntype nbb ++
      extractComponentsChildren nchildren depth

/-- The child loop of `extractComponentsFromNode`. -/
def extractComponentsChildren : List FigmaNode → Nat → List ComponentSummary
  | [], _ => []
  | c :: cs, depth =>
    extractComponentsFromNode c (depth + 1) ++ extractComponentsChildren cs depth
end

/-- The `components` field of the baseline payload:
`extractComponentsFromNode(selectedFrame)` with the default depth 0. -/
def baselineComponents (selectedFrame : FigmaNode) : List ComponentSummary :=
  extractComponentsFromNode selectedFrame 0

/-! ## Claim theorem: the selected frame appears in its own component list (C10) -/

/-- C10: when the node handed to `extractComponentsFromNode` — in the
baseline build, the selected frame — has a component-like type
(COMPONENT, INSTANCE, FRAME or GROUP) and a positive-area bounding box,
that node itself is the first entry of the returned component list. -/
theorem component_root_claim (nid nname ntype : String) (bb : FigmaBoundingBox)
    (cs : List FigmaNode) (htype : isComponentType ntype = true)
    (hw : 0 < bb.width) (hh : 0 < bb.height) :
    baselineComponents (.mk nid nname ntype (some bb) cs)
      = { id := nid
          name := if nname = "" then "Unnamed" else nname
          type := ntype
          bounds := ⟨jsRound bb.x, jsRound bb.y, jsRound bb.width, jsRound bb.height⟩ }
        :: extractComponentsChildren cs 0 := by
  rw [baselineComponents, extractComponentsFromNode,
      if_neg (by rw [COMPONENT_MAX_DEPTH]; omega)]
  rw [componentSelfEntry]
  rw [if_pos htype, if_pos ⟨hw, hh⟩]
  rfl

theorem component_root_claim_witness :
    baselineComponents (.mk "9:9" "Card" "FRAME" (some ⟨2, 3, 100, 40⟩) [])
      = [{ id := "9:9"
           name := "Card"
           type := "FRAME"
           bounds := ⟨jsRound (2 : Rat), jsRound (3 : Rat), jsRound (100 : Rat),
                      jsRound (40 : Rat)⟩ }] := by
  rw [component_root_claim "9:9" "Card" "FRAME" ⟨2, 3, 100, 40⟩ [] (by decide)
        (by norm_num) (by norm_num)]
  rw [extractComponentsChildren]
  simp

end PixelProof
